import Mathlib

/-!
Verification of the extraction & classification pipeline of
`src/server/app.py` (Spending Spotlight).

Modelling conventions:
* Text is `List Char`.  Python string helpers (`lower`, `strip`, `in`,
  `split`, `join`, `startswith`) are embedded as executable functions below,
  restricted to the ASCII behaviour the statements need.
* The external reasoning oracle is a parameter.  A call outcome is
  `Option Json`: `none` covers a failed API call and a response whose text
  `json.loads` cannot parse (both land in the same `except` branch of the
  source); `some j` is the parsed JSON value of the response after the
  markdown-fence clean-up.  For `classify_with_gpt` the response is
  `Option (List Char)` (the raw response text, or `none` for a failed call).
* Python exceptions that escape a `try` block are modelled with
  `Except PyError`.
-/

/-- Python exceptions that can escape the pipeline's own `try` blocks. -/
inductive PyError where
  | attributeError
  | typeError
deriving DecidableEq, Repr

/-- Values `json.loads` can produce (strings carried as `List Char`). -/
inductive Json where
  | null
  | bool (b : Bool)
  | num (n : Int)
  | str (s : List Char)
  | arr (elems : List Json)
  | obj (fields : List (List Char × Json))
deriving BEq, Repr

/-- ASCII model of Python `str.lower` on one character. -/
def pyLowerChar (c : Char) : Char :=
  if 'A' ≤ c ∧ c ≤ 'Z' then Char.ofNat (c.toNat + 32) else c

/-- Model of Python `str.lower`. -/
def pyLower (s : List Char) : List Char := s.map pyLowerChar

/-- Whitespace characters removed by Python `str.strip()` (ASCII range). -/
def pyIsSpace (c : Char) : Bool :=
  c = ' ' || c = '\t' || c = '\n' || c = '\r' || c = '\x0b' || c = '\x0c'

/-- Model of Python `str.strip()`: drop whitespace at both ends. -/
def pyStrip (s : List Char) : List Char :=
  ((s.dropWhile pyIsSpace).reverse.dropWhile pyIsSpace).reverse

/-- Model of Python substring test `pat in s`. -/
def containsSub (pat : List Char) : List Char → Bool
  | [] => pat.isPrefixOf []
  | c :: rest => pat.isPrefixOf (c :: rest) || containsSub pat rest

/-- Model of Python `s.split(sep)` (for a one-character separator). -/
def pySplit (sep : Char) : List Char → List (List Char)
  | [] => [[]]
  | c :: rest =>
    match pySplit sep rest with
    | [] => [[]]
    | grp :: grps => if c = sep then [] :: grp :: grps else (c :: grp) :: grps

/-- Model of Python `sep.join(groups)` (one-character separator). -/
def pyJoin (sep : Char) : List (List Char) → List Char
  | [] => []
  | [l] => l
  | l :: ls => l ++ sep :: pyJoin sep ls

example : pySplit '\n' "a\nb".data = ["a".data, "b".data] := by decide
example : pySplit '\n' [] = [[]] := by decide
example : pyJoin '\n' ["a".data, "b".data] = "a\nb".data := by decide
example : pyStrip "  x y ".data = "x y".data := by decide
example : pyLower "AbC".data = "abc".data := by decide
example : containsSub "act".data "transactions".data = true := by decide
example : containsSub "zz".data "transactions".data = false := by decide

/-! ## Step 1 of `extract_transactions_with_ai`: keyword identification

`app.py` lines 59-78.  The whole step sits inside `try/except`: a failed API
call, a response that is not valid JSON, and a JSON value that is not an
object (so that `.get` raises `AttributeError`) all fall back to the fixed
default keyword list.  A JSON object is interrogated with
`identification.get("section_keywords", [])`. -/

/-- The fixed fallback keyword list from the `except` branch (line 78). -/
def default_keywords : List (List Char) :=
  ["transactions".data, "activity".data, "details".data, "purchases".data]

/-- The Python value bound to `section_keywords` after step 1
(`app.py` 59-78), as a function of the parsed oracle response. -/
def section_keywords (idResp : Option Json) : Json :=
  match idResp with
  | some (Json.obj fields) => (fields.lookup "section_keywords".data).getD (Json.arr [])
  | some _ => Json.arr (default_keywords.map Json.str)
  | none => Json.arr (default_keywords.map Json.str)

/-! ## Step 2: section location (`app.py` lines 81-103) -/

/-- The fixed end markers of line 93. -/
def end_markers : List (List Char) :=
  ["interest information".data, "important information".data, "in case of errors".data]

/-- Python iteration over the `section_keywords` value
(`for keyword in section_keywords`): lists yield their elements, strings
their characters, dicts their keys; other values raise `TypeError`. -/
def pyIterElems : Json → Except PyError (List Json)
  | Json.arr xs => .ok xs
  | Json.str s => .ok (s.map (fun c => Json.str [c]))
  | Json.obj fs => .ok (fs.map (fun p => Json.str p.1))
  | _ => .error .typeError

/-- `any(keyword in line_lower for keyword in section_keywords)` with
Python's left-to-right short-circuit: a non-string keyword reached before a
match raises `TypeError` (line 89). -/
def pyAnyKwIn : List Json → List Char → Except PyError Bool
  | [], _ => .ok false
  | Json.str k :: rest, l => if containsSub k l then .ok true else pyAnyKwIn rest l
  | _ :: _, _ => .error .typeError

/-- One iteration of the line scan (`app.py` 85-100).  State is
`(transaction_section, in_transaction_section)`.  Note the end-marker branch
appends the line and `continue`s but never clears the flag. -/
def lineStep (elems : List Json) (st : List (List Char) × Bool) (line : List Char) :
    Except PyError (List (List Char) × Bool) :=
  let line_lower := pyLower line
  match pyAnyKwIn elems line_lower with
  | .error e => .error e
  | .ok hit =>
    let in_sec := st.2 || hit
    if end_markers.any (fun m => containsSub m line_lower) then
      if in_sec && decide (st.1.length > 50) then .ok (st.1 ++ [line], in_sec)
      else if in_sec then .ok (st.1 ++ [line], in_sec) else .ok (st.1, in_sec)
    else if in_sec then .ok (st.1 ++ [line], in_sec) else .ok (st.1, in_sec)

/-- The `for line in lines` loop of `app.py` 85-100. -/
def scan_lines (elems : List Json) :
    List (List Char) × Bool → List (List Char) → Except PyError (List (List Char) × Bool)
  | st, [] => .ok st
  | st, line :: rest =>
    match lineStep elems st line with
    | .error e => .error e
    | .ok st2 => scan_lines elems st2 rest

/-- The collected `transaction_section` line list (`app.py` 81-100).
`split` never returns an empty list, so evaluating the keyword iterator,
which Python does on the first loop iteration, is hoisted in front. -/
def transaction_section (kws : Json) (text : List Char) :
    Except PyError (List (List Char)) :=
  match pyIterElems kws with
  | .error e => .error e
  | .ok elems =>
    match scan_lines elems ([], false) (pySplit '\n' text) with
    | .error e => .error e
    | .ok st => .ok st.1

/-- `relevant_text = '\n'.join(transaction_section) if transaction_section
else pdf_text` (`app.py` line 103). -/
def relevant_text (kws : Json) (text : List Char) : Except PyError (List Char) :=
  match transaction_section kws text with
  | .error e => .error e
  | .ok sec => .ok (if sec = [] then text else pyJoin '\n' sec)

/-! ## Step 3: chunk planning (`app.py` lines 105-114) -/

def max_chars : Nat := 12000

def max_chunks : Nat := 10

/-- `[relevant_text[i:i+max_chars] for i in range(0, len(relevant_text),
max_chars)]`, written with a fuel argument (the string length) so that the
definition is structurally recursive; with `0 < n` each step consumes at
least one character, so the fuel never runs out before the text does. -/
def chunksOfAux (n : Nat) : Nat → List Char → List (List Char)
  | 0, _ => []
  | _, [] => []
  | fuel + 1, c :: cs => (c :: cs).take n :: chunksOfAux n fuel ((c :: cs).drop n)

/-- The `text_chunks` list of `app.py` line 109. -/
def chunksOf (n : Nat) (s : List Char) : List (List Char) := chunksOfAux n s.length s

/-! ## Steps 3-4: per-chunk extraction (`app.py` lines 114-169) -/

/-- The transactions contributed by one chunk.  `none`: the API call failed
or `json.loads` raised, caught by `except` → contributes nothing (line 167).
A parsed non-list fails `isinstance(transactions, list)` → also nothing.
A parsed list is extended onto the accumulator verbatim (line 165), whatever
its elements are. -/
def chunk_transactions (resp : Option Json) : List Json :=
  match resp with
  | some (Json.arr ts) => ts
  | some _ => []
  | none => []

/-- The `all_transactions` accumulator over `enumerate(text_chunks[:max_chunks])`
(`app.py` 107, 114-169); the oracle response may depend on the chunk index and
the chunk text. -/
def all_transactions (extResp : Nat → List Char → Option Json)
    (chunks : List (List Char)) : List Json :=
  (chunks.enum.map (fun p => chunk_transactions (extResp p.1 p.2))).flatten

/-! ## Deduplication (`app.py` line 172) -/

/-- `[t.strip() for t in all_transactions if t.strip()]` evaluates
`t.strip()` element by element, left to right; a non-string element raises
`AttributeError` — this sits outside every `try` block. -/
def stripped_transactions : List Json → Except PyError (List (List Char))
  | [] => .ok []
  | Json.str s :: rest =>
    match stripped_transactions rest with
    | .error e => .error e
    | .ok r => .ok (pyStrip s :: r)
  | _ :: _ => .error .attributeError

/-- `list(set(...))` over the stripped strings: drop falsy (empty) strings,
then remove exact duplicates.  Python's set iteration order is unspecified;
`List.dedup` is one concrete order, and every claim about this stage is
order-insensitive. -/
def unique_transactions (stripped : List (List Char)) : List (List Char) :=
  (stripped.filter (fun t => !t.isEmpty)).dedup

/-! ## The oracle and the composed pipeline -/

/-- One run's oracle responses: the identification call, the per-chunk
extraction calls (index and chunk text), and the per-transaction
classification calls (call index, transaction, categories). -/
structure Oracle where
  idResp : Option Json
  extResp : Nat → List Char → Option Json
  clsResp : Nat → List Char → List (List Char) → Option (List Char)

/-- `extract_transactions_with_ai` (`app.py` 43-174). -/
def extract_transactions_with_ai (o : Oracle) (pdf_text : List Char) :
    Except PyError (List (List Char)) :=
  match relevant_text (section_keywords o.idResp) pdf_text with
  | .error e => .error e
  | .ok relevant =>
    match stripped_transactions
        (all_transactions o.extResp ((chunksOf max_chars relevant).take max_chunks)) with
    | .error e => .error e
    | .ok stripped => .ok (unique_transactions stripped)

/-- `classify_with_gpt` (`app.py` 176-213): the stripped response text, or
the fail-closed default on any failure of the call. -/
def classify_with_gpt (resp : Option (List Char)) : List Char :=
  match resp with
  | some r => pyStrip r
  | none => "Unexpected".data

/-- The classification loop of `analyze_pdf` (`app.py` 287-302): each
transaction goes to `expected` exactly when the classification result,
lowercased, starts with `"expected"`. -/
def classify_loop (f : Nat → List Char → List (List Char) → Option (List Char))
    (cats : List (List Char)) : Nat → List (List Char) → List (List Char) × List (List Char)
  | _, [] => ([], [])
  | i, t :: rest =>
    let prev := classify_loop f cats (i + 1) rest
    if "expected".data.isPrefixOf (pyLower (classify_with_gpt (f i t cats)))
    then (t :: prev.1, prev.2) else (prev.1, t :: prev.2)

/-- Outcome of `analyze_pdf`: a structured JSON error response, a 500 from
an exception that reached the outer handler, or the success record. -/
inductive AnalyzeOutcome where
  | error (msg : List Char)
  | serverError (e : PyError)
  | success (total : Nat) (expected unexpected : List (List Char))
deriving BEq, Repr

/-- The pipeline part of `analyze_pdf` (`app.py` 250-312), starting from the
extracted text (upload/file handling is outside the model).  The success
record keeps the transaction of each entry; the `classification` field of an
entry is the constant matching its list. -/
def analyze_pdf (o : Oracle) (pdf_text : List Char) (categories : List (List Char)) :
    AnalyzeOutcome :=
  if categories.length = 0 then .error "No categories selected".data
  else if pdf_text.length < 50 then .error "Could not extract text from PDF".data
  else
    match extract_transactions_with_ai o pdf_text with
    | .error e => .serverError e
    | .ok transactions =>
      if transactions.length = 0 then
        .error "No transactions found in PDF. Please ensure the PDF contains transaction details.".data
      else
        .success transactions.length
          (classify_loop o.clsResp categories 0 transactions).1
          (classify_loop o.clsResp categories 0 transactions).2

/-! ## Chunk planner lemmas -/

theorem chunksOfAux_nil (n : Nat) : ∀ fuel, chunksOfAux n fuel [] = [] := by
  intro fuel
  cases fuel <;> rfl

theorem mem_chunksOfAux_length (n : Nat) :
    ∀ fuel s c, c ∈ chunksOfAux n fuel s → c.length ≤ n := by
  intro fuel
  induction fuel with
  | zero => intro s c hc; simp [chunksOfAux] at hc
  | succ f ih =>
    intro s c hc
    cases s with
    | nil => simp [chunksOfAux] at hc
    | cons a as =>
      simp only [chunksOfAux, List.mem_cons] at hc
      rcases hc with hc | hc
      · subst hc
        simp [Nat.min_le_left]
      · exact ih _ _ hc

theorem chunksOfAux_take_flatten (n : Nat) (hn : 0 < n) :
    ∀ (k fuel : Nat) (s : List Char), s.length ≤ fuel →
      ((chunksOfAux n fuel s).take k).flatten = s.take (k * n) := by
  intro k
  induction k with
  | zero => intro fuel s _; simp
  | succ k ih =>
    intro fuel s hs
    cases s with
    | nil => simp [chunksOfAux_nil]
    | cons a as =>
      cases fuel with
      | zero => simp at hs
      | succ f =>
        rw [List.length_cons] at hs
        have hdrop : ((a :: as).drop n).length ≤ f := by
          rw [List.length_drop, List.length_cons]
          omega
        simp only [chunksOfAux, List.take_succ_cons, List.flatten_cons, ih f _ hdrop]
        rw [← List.take_add]
        congr 1
        ring

/-- C1 helper: the planned chunk list, `text_chunks[:max_chunks]`. -/
def planned_chunks (relevant : List Char) : List (List Char) :=
  (chunksOf max_chars relevant).take max_chunks

/-- **C1.** For every Relevant Text Region, the Chunk Planner produces at
most 10 chunks, each at most 12,000 characters long, and concatenating the
chunks in index order yields exactly the first
`min (length of region) 120000` characters of the region; everything beyond
the count ceiling is dropped. -/
theorem chunk_planner_bounds (relevant : List Char) :
    (planned_chunks relevant).length ≤ 10
    ∧ (∀ c ∈ planned_chunks relevant, c.length ≤ 12000)
    ∧ (planned_chunks relevant).flatten = relevant.take 120000
    ∧ (relevant.take 120000).length = min relevant.length 120000 := by
  refine ⟨?_, ?_, ?_, ?_⟩
  · simp only [planned_chunks]
    exact List.length_take_le max_chunks (chunksOf max_chars relevant)
  · intro c hc
    have hc' : c ∈ chunksOf max_chars relevant := List.mem_of_mem_take hc
    simpa [max_chars] using mem_chunksOfAux_length max_chars _ _ _ hc'
  · have h := chunksOfAux_take_flatten max_chars (by decide) max_chunks
      relevant.length relevant (le_refl _)
    simpa [planned_chunks, chunksOf, max_chars, max_chunks] using h
  · simp [List.length_take, Nat.min_comm]

/-! ## Section locator characterization -/

/-- Does a line contain any of the (string) keywords, case-insensitively —
the toggle condition of `app.py` line 89. -/
def hitsKeyword (kws : List (List Char)) (line : List Char) : Bool :=
  kws.any (fun k => containsSub k (pyLower line))

/-- Reference shape of the collected region: the first line containing a
keyword and every line after it, or nothing when no line hits. -/
def suffixFromFirstHit (kws : List (List Char)) : List (List Char) → List (List Char)
  | [] => []
  | l :: ls => if hitsKeyword kws l then l :: ls else suffixFromFirstHit kws ls

theorem pyAnyKwIn_str (kws : List (List Char)) (l : List Char) :
    pyAnyKwIn (kws.map Json.str) l = .ok (kws.any (fun k => containsSub k l)) := by
  induction kws with
  | nil => rfl
  | cons k rest ih =>
    simp only [List.map_cons, pyAnyKwIn, List.any_cons]
    by_cases h : containsSub k l = true
    · simp [h]
    · simp only [Bool.not_eq_true] at h
      simp [h, ih]

theorem lineStep_str (kws : List (List Char)) (st : List (List Char) × Bool)
    (line : List Char) :
    lineStep (kws.map Json.str) st line =
      .ok (if st.2 || hitsKeyword kws line then st.1 ++ [line] else st.1,
           st.2 || hitsKeyword kws line) := by
  unfold lineStep
  simp only [pyAnyKwIn_str, hitsKeyword]
  rcases Bool.eq_false_or_eq_true
      (st.2 || kws.any (fun k => containsSub k (pyLower line))) with hb | hb
  · simp only [hb]
    split
    · split <;> simp
    · simp
  · simp only [hb]
    split <;> simp

theorem lineStep_str_on (kws : List (List Char)) (acc : List (List Char))
    (line : List Char) :
    lineStep (kws.map Json.str) (acc, true) line = .ok (acc ++ [line], true) := by
  rw [lineStep_str]
  simp

theorem lineStep_str_off (kws : List (List Char)) (acc : List (List Char))
    (line : List Char) :
    lineStep (kws.map Json.str) (acc, false) line =
      .ok (if hitsKeyword kws line then acc ++ [line] else acc, hitsKeyword kws line) := by
  rw [lineStep_str]
  simp

theorem scan_lines_str_on (kws : List (List Char)) :
    ∀ (lines : List (List Char)) (acc : List (List Char)),
      scan_lines (kws.map Json.str) (acc, true) lines = .ok (acc ++ lines, true) := by
  intro lines
  induction lines with
  | nil => intro acc; simp [scan_lines]
  | cons l ls ih =>
    intro acc
    simp only [scan_lines, lineStep_str_on]
    rw [ih (acc ++ [l])]
    simp

theorem scan_lines_str_off (kws : List (List Char)) :
    ∀ (lines : List (List Char)) (acc : List (List Char)),
      scan_lines (kws.map Json.str) (acc, false) lines =
        .ok (acc ++ suffixFromFirstHit kws lines,
             lines.any (fun l => hitsKeyword kws l)) := by
  intro lines
  induction lines with
  | nil => intro acc; simp [scan_lines, suffixFromFirstHit]
  | cons l ls ih =>
    intro acc
    simp only [scan_lines, lineStep_str_off]
    cases h : hitsKeyword kws l with
    | false =>
      simp only [Bool.false_eq_true, if_false]
      rw [ih acc]
      simp [suffixFromFirstHit, h]
    | true =>
      simp only [if_true]
      rw [scan_lines_str_on kws ls (acc ++ [l])]
      simp [suffixFromFirstHit, h]

/-- With string keywords, the collected region is exactly the suffix of the
document starting at the first line that contains a keyword: the end-marker
branch never stops collection. -/
theorem transaction_section_str (kws : List (List Char)) (text : List Char) :
    transaction_section (Json.arr (kws.map Json.str)) text =
      .ok (suffixFromFirstHit kws (pySplit '\n' text)) := by
  unfold transaction_section
  simp only [pyIterElems]
  rw [scan_lines_str_off kws (pySplit '\n' text) []]
  simp

/-! ## C2: behaviour at end-marker lines -/

/-- A document whose keyword line is followed by 51 filler lines, an
end-marker line, and one further line. -/
def linesC2 : List (List Char) :=
  "transactions".data ::
    (List.replicate 51 "x".data ++ ["important information".data, "zz after the marker".data])

def docC2 : List Char := pyJoin '\n' linesC2

/-- **C2, counterexample.**  In `docC2` the end-marker line
`"important information"` is reached with the flag on and 52 (> 50) lines
already collected, yet the line after it, `"zz after the marker"`, is still
appended: collection does not stop at the guard, refuting the claim that no
later line of the document is added. -/
theorem section_locator_marker_counterexample :
    transaction_section (Json.arr [Json.str "transactions".data]) docC2 = .ok linesC2
    ∧ linesC2[52]? = some "important information".data
    ∧ linesC2[53]? = some "zz after the marker".data
    ∧ linesC2.length = 54 := by
  refine ⟨?_, by decide, by decide, by decide⟩
  have h := transaction_section_str ["transactions".data] docC2
  simp only [List.map_cons, List.map_nil] at h
  rw [h]
  exact congrArg Except.ok (by decide)

/-- **C2, amended.**  Once the inside-region flag is on, every subsequent
line — end-marker lines included, and every line after an end-marker — is
appended to the region: the collected region is exactly the suffix of the
document starting at the first line containing a keyword (the end-marker
guard merely appends the marker line, which the fall-through branch would
have done anyway, and never stops collection). -/
theorem section_locator_marker_amended (kws : List (List Char)) (text : List Char) :
    transaction_section (Json.arr (kws.map Json.str)) text =
      .ok (suffixFromFirstHit kws (pySplit '\n' text)) :=
  transaction_section_str kws text

/-! ## C7: fail-open when no keyword matches -/

theorem suffixFromFirstHit_nil (kws : List (List Char)) :
    ∀ lines : List (List Char), (∀ l ∈ lines, hitsKeyword kws l = false) →
      suffixFromFirstHit kws lines = [] := by
  intro lines
  induction lines with
  | nil => intro _; rfl
  | cons l ls ih =>
    intro h
    simp only [suffixFromFirstHit, h l (List.mem_cons_self l ls), Bool.false_eq_true,
      if_false]
    exact ih (fun x hx => h x (List.mem_cons_of_mem l hx))

/-- **C7.**  If the keywords are lowercase strings and no line of the
document contains any of them case-insensitively, the flag never toggles on
and the Relevant Text Region is the full document, unchanged. -/
theorem fail_open_region (kws : List (List Char)) (text : List Char)
    (hlow : ∀ k ∈ kws, pyLower k = k)
    (hno : ∀ line ∈ pySplit '\n' text, ∀ k ∈ kws,
      containsSub (pyLower k) (pyLower line) = false) :
    relevant_text (Json.arr (kws.map Json.str)) text = .ok text := by
  unfold relevant_text
  rw [transaction_section_str]
  rw [suffixFromFirstHit_nil kws _ ?_]
  · simp
  · intro l hl
    unfold hitsKeyword
    rw [List.any_eq_false]
    intro k hk
    rw [← hlow k hk]
    simp [hno l hl k hk]

/-- Witness for C7: keywords `{"transactions"}` and a document none of whose
lines mentions them. -/
theorem fail_open_region_witness :
    (∀ k ∈ ["transactions".data], pyLower k = k)
    ∧ (∀ line ∈ pySplit '\n' "no relevant lines here\njust an address".data,
        ∀ k ∈ ["transactions".data],
          containsSub (pyLower k) (pyLower line) = false)
    ∧ relevant_text (Json.arr (["transactions".data].map Json.str))
        "no relevant lines here\njust an address".data
        = .ok "no relevant lines here\njust an address".data :=
  ⟨by decide, by decide,
    fail_open_region ["transactions".data] "no relevant lines here\njust an address".data
      (by decide) (by decide)⟩

/-! ## C9: keyword defaults -/

/-- **C9, counterexample.**  The oracle response `{}` parses as JSON and
supplies no keyword list, yet `identification.get("section_keywords", [])`
succeeds and yields the empty list — not the fixed default set — so the
claim that every structurally invalid output falls back to the default
keyword set is false. -/
theorem keyword_default_counterexample :
    section_keywords (some (Json.obj [])) = Json.arr []
    ∧ section_keywords (some (Json.obj [])) ≠ Json.arr (default_keywords.map Json.str) := by
  constructor
  · rfl
  · intro h
    rw [section_keywords] at h
    simp [default_keywords] at h

/-- **C9, amended.**  The default keyword set is used exactly when the
oracle call fails, the response is not valid JSON, or the parsed JSON value
is not an object (`.get` raises `AttributeError`, caught by the `except`).
A JSON object, however, yields `identification.get("section_keywords", [])`:
the empty keyword list when the key is missing, and otherwise the stored
value as-is, whatever its type. -/
theorem keyword_default_amended :
    section_keywords none = Json.arr (default_keywords.map Json.str)
    ∧ section_keywords (some Json.null) = Json.arr (default_keywords.map Json.str)
    ∧ (∀ b, section_keywords (some (Json.bool b)) = Json.arr (default_keywords.map Json.str))
    ∧ (∀ n, section_keywords (some (Json.num n)) = Json.arr (default_keywords.map Json.str))
    ∧ (∀ s, section_keywords (some (Json.str s)) = Json.arr (default_keywords.map Json.str))
    ∧ (∀ xs, section_keywords (some (Json.arr xs)) = Json.arr (default_keywords.map Json.str))
    ∧ (∀ fields, section_keywords (some (Json.obj fields)) =
        (fields.lookup "section_keywords".data).getD (Json.arr [])) :=
  ⟨rfl, rfl, fun _ => rfl, fun _ => rfl, fun _ => rfl, fun _ => rfl, fun _ => rfl⟩

/-! ## C10: `has_transactions` does not influence the result -/

/-- **C10.**  The pipeline reads only the `section_keywords` field of the
identification response: two parsed object responses whose
`section_keywords` lookups agree — in particular, responses differing only
in `has_transactions` — give identical extraction results and identical
final outcomes, for every document, category set and downstream oracle
behaviour. -/
theorem has_transactions_noninterference (o : Oracle)
    (f1 f2 : List (List Char × Json))
    (h : f1.lookup "section_keywords".data = f2.lookup "section_keywords".data) :
    ∀ (text : List Char) (cats : List (List Char)),
      extract_transactions_with_ai { o with idResp := some (Json.obj f1) } text
        = extract_transactions_with_ai { o with idResp := some (Json.obj f2) } text
      ∧ analyze_pdf { o with idResp := some (Json.obj f1) } text cats
        = analyze_pdf { o with idResp := some (Json.obj f2) } text cats := by
  have hk : section_keywords (some (Json.obj f1)) = section_keywords (some (Json.obj f2)) := by
    simp only [section_keywords, h]
  intro text cats
  have hext : extract_transactions_with_ai { o with idResp := some (Json.obj f1) } text
      = extract_transactions_with_ai { o with idResp := some (Json.obj f2) } text := by
    simp only [extract_transactions_with_ai, hk]
  exact ⟨hext, by simp only [analyze_pdf, hext]⟩

/-- Witness for C10: two responses that differ only in `has_transactions`. -/
theorem has_transactions_noninterference_witness :
    analyze_pdf
        { idResp := some (Json.obj [("has_transactions".data, Json.bool true),
            ("section_keywords".data, Json.arr [Json.str "activity".data])]),
          extResp := fun _ _ => none, clsResp := fun _ _ _ => none }
        "short doc".data ["groceries".data]
      = analyze_pdf
        { idResp := some (Json.obj [("has_transactions".data, Json.bool false),
            ("section_keywords".data, Json.arr [Json.str "activity".data])]),
          extResp := fun _ _ => none, clsResp := fun _ _ _ => none }
        "short doc".data ["groceries".data] :=
  (has_transactions_noninterference
    { idResp := none, extResp := fun _ _ => none, clsResp := fun _ _ _ => none }
    [("has_transactions".data, Json.bool true),
      ("section_keywords".data, Json.arr [Json.str "activity".data])]
    [("has_transactions".data, Json.bool false),
      ("section_keywords".data, Json.arr [Json.str "activity".data])]
    rfl "short doc".data ["groceries".data]).2

/-! ## C6: the deduplicator -/

theorem pyNonEmpty_iff (l : List Char) : (!l.isEmpty) = true ↔ l ≠ [] := by
  cases l <;> simp

theorem stripped_transactions_str (ts : List (List Char)) :
    stripped_transactions (ts.map Json.str) = .ok (ts.map pyStrip) := by
  induction ts with
  | nil => rfl
  | cons t rest ih => simp [stripped_transactions, ih]

/-- **C6.**  On a list of raw transaction strings, the comprehension of
`app.py` line 172 strips each string (first conjunct ties this to the
source path through `stripped_transactions`), and the resulting unique set
is exactly the non-empty trimmed forms: membership is characterized by the
trimmed forms of the inputs, the output has no duplicates, every output
element is non-empty, and two inputs whose (non-empty) trims differ — in
particular trims differing only in letter case — both stay in the output as
distinct elements. -/
theorem deduplicator_spec (ts : List (List Char)) :
    stripped_transactions (ts.map Json.str) = .ok (ts.map pyStrip)
    ∧ (∀ u, u ∈ unique_transactions (ts.map pyStrip) ↔
        (u ≠ [] ∧ ∃ t ∈ ts, pyStrip t = u))
    ∧ (unique_transactions (ts.map pyStrip)).Nodup
    ∧ (∀ u ∈ unique_transactions (ts.map pyStrip), u ≠ [])
    ∧ (∀ t1 t2, t1 ∈ ts → t2 ∈ ts → pyStrip t1 ≠ [] → pyStrip t2 ≠ [] →
        pyStrip t1 ≠ pyStrip t2 →
        pyStrip t1 ∈ unique_transactions (ts.map pyStrip)
        ∧ pyStrip t2 ∈ unique_transactions (ts.map pyStrip)) := by
  have hmem : ∀ u, u ∈ unique_transactions (ts.map pyStrip) ↔
      (u ≠ [] ∧ ∃ t ∈ ts, pyStrip t = u) := by
    intro u
    simp only [unique_transactions, List.mem_dedup, List.mem_filter, List.mem_map]
    constructor
    · rintro ⟨⟨t, ht, rfl⟩, hne⟩
      exact ⟨(pyNonEmpty_iff _).1 hne, t, ht, rfl⟩
    · rintro ⟨hne, t, ht, rfl⟩
      exact ⟨⟨t, ht, rfl⟩, (pyNonEmpty_iff _).2 hne⟩
  refine ⟨stripped_transactions_str ts, hmem, List.nodup_dedup _, ?_, ?_⟩
  · intro u hu
    exact ((hmem u).1 hu).1
  · intro t1 t2 h1 h2 hne1 hne2 _
    exact ⟨(hmem _).2 ⟨hne1, t1, h1, rfl⟩, (hmem _).2 ⟨hne2, t2, h2, rfl⟩⟩

/-- Witness for C6: among `[" netflix ", "NETFLIX", "  ", "netflix"]` the
case variants survive deduplication as two distinct non-empty elements. -/
theorem deduplicator_spec_witness :
    pyStrip " netflix ".data
      ∈ unique_transactions ([" netflix ".data, "NETFLIX".data, "  ".data,
          "netflix".data].map pyStrip)
    ∧ pyStrip "NETFLIX".data
      ∈ unique_transactions ([" netflix ".data, "NETFLIX".data, "  ".data,
          "netflix".data].map pyStrip) :=
  (deduplicator_spec [" netflix ".data, "NETFLIX".data, "  ".data,
      "netflix".data]).2.2.2.2
    " netflix ".data "NETFLIX".data (by decide) (by decide) (by decide)
    (by decide) (by decide)

/-! ## C4: the classification acceptance rule -/

/-- **C4.**  A transaction is placed in the expected list exactly when the
classify response, stripped of surrounding whitespace and lowercased, starts
with `"expected"`; a failed call yields the default `"Unexpected"`, which is
placed in the unexpected list.  The scenario responses
`"expected, matches groceries"` and `"unsure"` land in the expected and
unexpected lists respectively. -/
theorem classify_prefix_rule :
    (∀ (cats : List (List Char)) (i : Nat) (t r : List Char),
      classify_loop (fun _ _ _ => some r) cats i [t] =
        if "expected".data.isPrefixOf (pyLower (pyStrip r))
        then ([t], ([] : List (List Char))) else ([], [t]))
    ∧ (∀ (cats : List (List Char)) (i : Nat) (t : List Char),
      classify_loop (fun _ _ _ => none) cats i [t] = ([], [t]))
    ∧ classify_loop (fun _ _ _ => some "expected, matches groceries".data)
        ["groceries".data] 0 ["sep 9 thrifty foods 45.00".data]
        = (["sep 9 thrifty foods 45.00".data], [])
    ∧ classify_loop (fun _ _ _ => some "unsure".data)
        ["groceries".data] 0 ["sep 11 netflix 15.99".data]
        = ([], ["sep 11 netflix 15.99".data]) := by
  refine ⟨?_, ?_, by decide, by decide⟩
  · intro cats i t r
    rcases Bool.eq_false_or_eq_true
        ("expected".data.isPrefixOf (pyLower (pyStrip r))) with h | h <;>
      simp [classify_loop, classify_with_gpt, h]
  · intro cats i t
    have hd : "expected".data.isPrefixOf (pyLower "Unexpected".data) = false := by decide
    simp [classify_loop, classify_with_gpt, hd]

/-! ## C5: the expected/unexpected partition -/

theorem classify_loop_mem_subset
    (f : Nat → List Char → List (List Char) → Option (List Char))
    (cats : List (List Char)) :
    ∀ (i : Nat) (txs : List (List Char)) (t : List Char),
      (t ∈ (classify_loop f cats i txs).1 → t ∈ txs)
      ∧ (t ∈ (classify_loop f cats i txs).2 → t ∈ txs) := by
  intro i txs
  induction txs generalizing i with
  | nil => intro t; simp [classify_loop]
  | cons x rest ih =>
    intro t
    simp only [classify_loop]
    split
    · constructor
      · intro h
        rcases List.mem_cons.1 h with h | h
        · exact h ▸ List.mem_cons_self x rest
        · exact List.mem_cons_of_mem x ((ih (i + 1) t).1 h)
      · intro h
        exact List.mem_cons_of_mem x ((ih (i + 1) t).2 h)
    · constructor
      · intro h
        exact List.mem_cons_of_mem x ((ih (i + 1) t).1 h)
      · intro h
        rcases List.mem_cons.1 h with h | h
        · exact h ▸ List.mem_cons_self x rest
        · exact List.mem_cons_of_mem x ((ih (i + 1) t).2 h)

theorem classify_loop_length
    (f : Nat → List Char → List (List Char) → Option (List Char))
    (cats : List (List Char)) :
    ∀ (i : Nat) (txs : List (List Char)),
      txs.length = (classify_loop f cats i txs).1.length
        + (classify_loop f cats i txs).2.length := by
  intro i txs
  induction txs generalizing i with
  | nil => simp [classify_loop]
  | cons x rest ih =>
    simp only [classify_loop]
    split
    · simp only [List.length_cons, ih (i + 1)]
      omega
    · simp only [List.length_cons, ih (i + 1)]
      omega

/-- **C5.**  For every Unique Transaction Set (a duplicate-free list) and
every sequence of classify responses, each element lands in exactly one of
the expected and unexpected lists, their lengths sum to the set's size, and
on the pipeline level a success record always reports
`totalTransactions = len(expected) + len(unexpected)`. -/
theorem partition_total_invariant (txs : List (List Char)) (hnd : txs.Nodup)
    (f : Nat → List Char → List (List Char) → Option (List Char))
    (cats : List (List Char)) (i : Nat) :
    (∀ t ∈ txs,
      (t ∈ (classify_loop f cats i txs).1 ∧ t ∉ (classify_loop f cats i txs).2)
      ∨ (t ∈ (classify_loop f cats i txs).2 ∧ t ∉ (classify_loop f cats i txs).1))
    ∧ txs.length = (classify_loop f cats i txs).1.length
        + (classify_loop f cats i txs).2.length
    ∧ (∀ (o : Oracle) (text : List Char) (total : Nat)
        (e u : List (List Char)),
        analyze_pdf o text cats = .success total e u → total = e.length + u.length) := by
  refine ⟨?_, classify_loop_length f cats i txs, ?_⟩
  · induction txs generalizing i with
    | nil => intro t ht; simp at ht
    | cons x rest ih =>
      have hx : x ∉ rest := (List.nodup_cons.1 hnd).1
      have hrest : rest.Nodup := (List.nodup_cons.1 hnd).2
      intro t ht
      rcases List.mem_cons.1 ht with rfl | htr
      · simp only [classify_loop]
        split
        · refine Or.inl ⟨List.mem_cons_self _ _, fun hu => ?_⟩
          exact hx ((classify_loop_mem_subset f cats (i + 1) rest t).2 hu)
        · refine Or.inr ⟨List.mem_cons_self _ _, fun he => ?_⟩
          exact hx ((classify_loop_mem_subset f cats (i + 1) rest t).1 he)
      · have htx : t ≠ x := fun h => hx (h ▸ htr)
        have := ih hrest (i + 1) t htr
        simp only [classify_loop]
        split
        · rcases this with ⟨he, hu⟩ | ⟨hu, he⟩
          · exact Or.inl ⟨List.mem_cons_of_mem x he, hu⟩
          · refine Or.inr ⟨hu, fun h => ?_⟩
            rcases List.mem_cons.1 h with h | h
            · exact htx h
            · exact he h
        · rcases this with ⟨he, hu⟩ | ⟨hu, he⟩
          · refine Or.inl ⟨he, fun h => ?_⟩
            rcases List.mem_cons.1 h with h | h
            · exact htx h
            · exact hu h
          · exact Or.inr ⟨List.mem_cons_of_mem x hu, he⟩
  · intro o text total e u h
    unfold analyze_pdf at h
    split at h
    · exact absurd h (by simp)
    · split at h
      · exact absurd h (by simp)
      · split at h
        · exact absurd h (by simp)
        · split at h
          · exact absurd h (by simp)
          · injection h with h1 h2 h3
            subst h1 h2 h3
            exact classify_loop_length o.clsResp cats 0 _

/-- Witness for C5 on a concrete duplicate-free transaction set. -/
theorem partition_total_invariant_witness :
    ("a".data ∈ (classify_loop (fun _ _ _ => none) ["g".data] 0
        ["a".data, "b".data]).2)
    ∧ ["a".data, "b".data].length
        = (classify_loop (fun _ _ _ => none) ["g".data] 0 ["a".data, "b".data]).1.length
          + (classify_loop (fun _ _ _ => none) ["g".data] 0 ["a".data, "b".data]).2.length := by
  have h := partition_total_invariant ["a".data, "b".data] (by decide)
    (fun _ _ _ => none) ["g".data] 0
  refine ⟨?_, h.2.1⟩
  rcases h.1 "a".data (by decide) with ⟨he, _⟩ | ⟨hu, _⟩
  · exact absurd he (by decide)
  · exact hu

/-! ## C3: behaviour under oracle failures and malformed responses -/

/-- A concrete run: identification fails, and every extraction response
parses to the JSON array `[1]` — a list, so it passes the `isinstance`
check and is extended onto the accumulator. -/
def oracleC3 : Oracle :=
  { idResp := none,
    extResp := fun _ _ => some (Json.arr [Json.num 1]),
    clsResp := fun _ _ _ => none }

/-- A document long enough for the pipeline whose first line contains the
default keyword `"transactions"`. -/
def docC3 : List Char :=
  "transactions\nSep 9 CHEVRON PURCHASE VICTORIA BC 30.00".data

/-- **C3, counterexample.**  The structurally malformed extraction response
`[1]` (valid JSON, a list whose element is not a string) does not degrade to
a default: `t.strip()` in the deduplication comprehension (line 172, outside
every `try`) raises `AttributeError`, so the run aborts with the 500
handler instead of completing with per-component defaults. -/
theorem oracle_failures_counterexample :
    extract_transactions_with_ai oracleC3 docC3 = .error .attributeError
    ∧ analyze_pdf oracleC3 docC3 ["groceries".data] = .serverError .attributeError :=
  ⟨rfl, rfl⟩

/-- The strings a graceful reading of one extraction response contributes:
nothing on failure or a non-list, the string elements of a list. -/
def graceful_strings (resp : Option Json) : List (List Char) :=
  match resp with
  | some (Json.arr ts) =>
    ts.filterMap (fun j => match j with | Json.str s => some s | _ => none)
  | _ => []

theorem filterMap_str_of_map_str (ls : List (List Char)) :
    (ls.map Json.str).filterMap
        (fun j => match j with | Json.str s => some s | _ => none) = ls := by
  induction ls with
  | nil => rfl
  | cons s rest ih => simp [ih]

theorem chunk_transactions_graceful (resp : Option Json)
    (h : resp = none ∨ ∃ ls : List (List Char), resp = some (Json.arr (ls.map Json.str))) :
    chunk_transactions resp = (graceful_strings resp).map Json.str := by
  rcases h with rfl | ⟨ls, rfl⟩
  · rfl
  · simp only [chunk_transactions, graceful_strings, filterMap_str_of_map_str]

theorem flatten_chunk_transactions_graceful
    (extResp : Nat → List Char → Option Json)
    (h : ∀ i c, extResp i c = none
      ∨ ∃ ls : List (List Char), extResp i c = some (Json.arr (ls.map Json.str))) :
    ∀ ps : List (Nat × List Char),
      (ps.map (fun p => chunk_transactions (extResp p.1 p.2))).flatten
        = ((ps.map (fun p => graceful_strings (extResp p.1 p.2))).flatten).map Json.str := by
  intro ps
  induction ps with
  | nil => rfl
  | cons p rest ih =>
    simp only [List.map_cons, List.flatten_cons, List.map_append, ih,
      chunk_transactions_graceful _ (h p.1 p.2)]

/-- **C3, amended.**  Oracle-call failures and well-typed responses degrade
gracefully: whenever the keyword scan completes and every extraction
response is either a failure (or unparseable/non-list output, `none`/non-arr
here) or a JSON array of strings, extraction completes with each chunk
contributing its own strings independently — a failed chunk contributes
nothing and never prevents later chunks from contributing — and the run
never ends in the 500 handler.  (The claim as stated is false: a JSON array
containing a non-string aborts the run, see the counterexample.) -/
theorem oracle_failures_amended (o : Oracle) (text relevant : List Char)
    (h1 : relevant_text (section_keywords o.idResp) text = .ok relevant)
    (h2 : ∀ i c, o.extResp i c = none
      ∨ ∃ ls : List (List Char), o.extResp i c = some (Json.arr (ls.map Json.str))) :
    extract_transactions_with_ai o text
      = .ok (unique_transactions
          ((((chunksOf max_chars relevant).take max_chunks).enum.map
            (fun p => graceful_strings (o.extResp p.1 p.2))).flatten.map pyStrip))
    ∧ ∀ (cats : List (List Char)) (e : PyError),
        analyze_pdf o text cats ≠ .serverError e := by
  have hext : extract_transactions_with_ai o text
      = .ok (unique_transactions
          ((((chunksOf max_chars relevant).take max_chunks).enum.map
            (fun p => graceful_strings (o.extResp p.1 p.2))).flatten.map pyStrip)) := by
    have hso : stripped_transactions
        (all_transactions o.extResp ((chunksOf max_chars relevant).take max_chunks))
        = .ok ((((chunksOf max_chars relevant).take max_chunks).enum.map
            (fun p => graceful_strings (o.extResp p.1 p.2))).flatten.map pyStrip) := by
      unfold all_transactions
      rw [flatten_chunk_transactions_graceful o.extResp h2, stripped_transactions_str]
    unfold extract_transactions_with_ai
    simp only [h1, hso]
  refine ⟨hext, ?_⟩
  intro cats e hserr
  unfold analyze_pdf at hserr
  split at hserr
  · exact AnalyzeOutcome.noConfusion hserr
  · split at hserr
    · exact AnalyzeOutcome.noConfusion hserr
    · simp only [hext] at hserr
      split at hserr
      · exact AnalyzeOutcome.noConfusion hserr
      · exact AnalyzeOutcome.noConfusion hserr

/-- A fully failing oracle: every call fails. -/
def oracleAllFail : Oracle :=
  { idResp := none, extResp := fun _ _ => none, clsResp := fun _ _ _ => none }

/-- Witness for the amended C3 at a concrete run with failing calls. -/
theorem oracle_failures_amended_witness :
    relevant_text (section_keywords oracleAllFail.idResp) docC3 = .ok docC3
    ∧ extract_transactions_with_ai oracleAllFail docC3
      = .ok (unique_transactions
          ((((chunksOf max_chars docC3).take max_chunks).enum.map
            (fun p => graceful_strings (oracleAllFail.extResp p.1 p.2))).flatten.map pyStrip))
    ∧ analyze_pdf oracleAllFail docC3 ["groceries".data]
        ≠ .serverError PyError.attributeError :=
  ⟨rfl,
    (oracle_failures_amended oracleAllFail docC3 docC3 rfl (fun _ _ => Or.inl rfl)).1,
    (oracle_failures_amended oracleAllFail docC3 docC3 rfl (fun _ _ => Or.inl rfl)).2
      ["groceries".data] PyError.attributeError⟩

/-! ## C8: all-chunk extraction failure ends in NoTransactionsFound -/

theorem flatten_of_none (extResp : Nat → List Char → Option Json)
    (hext : ∀ i c, extResp i c = none) (chunks : List (List Char)) :
    all_transactions extResp chunks = [] := by
  unfold all_transactions
  induction chunks.enum with
  | nil => rfl
  | cons p rest ih => simp [hext, chunk_transactions, ih]

/-- **C8.**  If the extraction oracle call fails on every chunk (and the
keyword scan completed, so extraction is reached), the accumulated list and
the Unique Transaction Set are empty and the run terminates with the
structured `NoTransactionsFound` error response — not a crash and not an
empty success record. -/
theorem no_transactions_error (o : Oracle) (text : List Char)
    (cats : List (List Char)) (hc : cats ≠ []) (hlen : 50 ≤ text.length)
    (relevant : List Char)
    (h1 : relevant_text (section_keywords o.idResp) text = .ok relevant)
    (hext : ∀ i c, o.extResp i c = none) :
    extract_transactions_with_ai o text = .ok []
    ∧ analyze_pdf o text cats
      = .error "No transactions found in PDF. Please ensure the PDF contains transaction details.".data := by
  have he : extract_transactions_with_ai o text = .ok [] := by
    have hso : stripped_transactions
        (all_transactions o.extResp ((chunksOf max_chars relevant).take max_chunks))
        = .ok [] := by
      rw [flatten_of_none o.extResp hext]
      rfl
    unfold extract_transactions_with_ai
    simp only [h1, hso]
    rfl
  refine ⟨he, ?_⟩
  unfold analyze_pdf
  rw [if_neg (by simpa using hc), if_neg (by omega), he]
  rfl

/-- Witness for C8: all extraction calls fail on a concrete document. -/
theorem no_transactions_error_witness :
    ["groceries".data] ≠ ([] : List (List Char))
    ∧ 50 ≤ docC3.length
    ∧ analyze_pdf oracleAllFail docC3 ["groceries".data]
      = .error "No transactions found in PDF. Please ensure the PDF contains transaction details.".data :=
  ⟨by decide, by decide,
    (no_transactions_error oracleAllFail docC3 ["groceries".data] (by decide)
      (by decide) docC3 rfl (fun _ _ => rfl)).2⟩
